import Mathlib

/-!
Verification of the jaclang compiler middle-end passes.

This file gives a shallow embedding, in Lean 4, of the parts of the
jaclang compiler that the specification talks about:

* `SymTabBuild` — the scope-stack discipline of
  `jaclang/compiler/passes/main/sym_tab_build_pass.py`
  (`push_scope`, `pop_scope`, `enter_test`/`exit_test`, `exit_import`);
* `DefUse` — the definition/use handlers of
  `jaclang/compiler/passes/main/def_use_pass.py`
  (`enter_assignment`, `enter_architype` walker tagging,
  `enter_name`/`enter_atom_trailer` chain resolution);
* `JacFormat` — the text-generation machinery of
  `jaclang/compiler/passes/tool/jac_formatter_pass.py`
  (`emit`/`emit_ln` at indent level 0, the module blank-line policy of
  `exit_module`, `exit_iter_for_stmt`, `exit_test`,
  `is_line_break_needed`).

Text is modelled as `List Char`; Python strings map to Lean `String.toList`.
Machine-level classes are reduced to the data the handlers actually touch:
symbol tables become identifiers plus recorded facts, side effects become
returned event lists, and collected diagnostics become returned message
lists (the `Pass.error` collection behaviour is modelled from the
specification, since the `Pass` base class is not part of this excerpt).
-/

/-- Text of the modelled program: Python strings as lists of characters. -/
abbrev Text := List Char

namespace SymTabBuild

/-- State of `SymTabBuildPass` reduced to the facts the pass accumulates.
`stack` models the Python list `self.cur_sym_tab` with the head of the Lean
list standing for the end (top) of the Python list; scopes are identified
by numeric ids.  `parent_of` records, for every scope created so far, the
parent scope it was created under (`none` for a root `SymbolTable`).
`defs_in` records every `def_insert` of a name into a scope.  `next_id` is
the id the next freshly created scope will receive. -/
structure PassState where
  stack : List Nat
  parent_of : List (Nat × Option Nat)
  defs_in : List (Nat × Text)
  next_id : Nat
deriving DecidableEq, Repr

/-- Model of `SymTabBuildPass.push_scope` (sym_tab_build_pass.py lines
20-29).  The `parent_tab` argument is `key_node.parent.sym_tab` when the
node has a parent (`inherit` in the source) and `none` otherwise.  The
three source branches: empty stack and no parent creates a fresh root
`SymbolTable`; empty stack with a parent first appends the parent's
existing table and then a fresh kid scope of it (two entries); otherwise a
fresh kid scope of the current top is appended. -/
def push_scope (st : PassState) (parent_tab : Option Nat) : PassState :=
  match st.stack, parent_tab with
  | [], none =>
      { st with
        stack := [st.next_id]
        parent_of := (st.next_id, none) :: st.parent_of
        next_id := st.next_id + 1 }
  | [], some p =>
      { st with
        stack := st.next_id :: p :: []
        parent_of := (st.next_id, some p) :: st.parent_of
        next_id := st.next_id + 1 }
  | top :: rest, _ =>
      { st with
        stack := st.next_id :: top :: rest
        parent_of := (st.next_id, some top) :: st.parent_of
        next_id := st.next_id + 1 }

/-- Model of `SymTabBuildPass.pop_scope` (lines 31-32): pop the top of the
scope stack (the Python return value is dropped). -/
def pop_scope (st : PassState) : PassState :=
  { st with stack := st.stack.tail }

/-- Model of `SymbolTable.def_insert` reduced to recording which name was
inserted into which scope; the handlers always insert into the scope at
the top of the stack (`self.cur_scope`, which `sync_node_to_scope` has
made `node.sym_tab`).  The empty-stack case cannot arise in the handlers
and is modelled as a no-op. -/
def def_insert (st : PassState) (name : Text) : PassState :=
  match st.stack with
  | [] => st
  | top :: _ => { st with defs_in := (top, name) :: st.defs_in }

/-- Helper-name filter of `SymTabBuildPass.enter_test` (line 70): of the
members of `unittest.TestCase` (passed in as `dir_names`, since the
standard library is outside this excerpt) keep exactly those whose name
starts with "assert". -/
def assert_names (dir_names : List Text) : List Text :=
  dir_names.filter (fun j => "assert".toList.isPrefixOf j)

/-- Model of `SymTabBuildPass.enter_test` (lines 65-73): push a scope for
the test node, then `def_insert` a stub name for every assertion helper. -/
def enter_test (st : PassState) (parent_tab : Option Nat)
    (dir_names : List Text) : PassState :=
  (assert_names dir_names).foldl def_insert (push_scope st parent_tab)

/-- Model of `SymTabBuildPass.exit_test` (lines 75-76): pop the scope. -/
def exit_test (st : PassState) : PassState :=
  pop_scope st

theorem foldl_def_insert (l : List Text) (st : PassState) (c : Nat)
    (rest : List Nat) (h : st.stack = c :: rest) :
    (l.foldl def_insert st).stack = st.stack ∧
    (l.foldl def_insert st).defs_in
      = (l.reverse.map fun nm => (c, nm)) ++ st.defs_in := by
  induction l generalizing st with
  | nil => simp
  | cons x xs ih =>
      have hd : (def_insert st x).stack = c :: rest := by
        simp [def_insert, h]
      obtain ⟨h1, h2⟩ := ih (def_insert st x) hd
      refine ⟨?_, ?_⟩
      · rw [List.foldl_cons, h1, hd, h]
      · rw [List.foldl_cons, h2]
        simp [def_insert, h]

/-- C1 (amended): whenever the scope stack is nonempty, or the node being
entered has no parent, `push_scope` pushes exactly one fresh scope whose
recorded parent is the previous top of the stack (`none` when the stack
was empty), and the following `pop_scope` restores exactly the stack seen
before the enter handler.  (The remaining source branch — empty stack and
a parented node — pushes two entries and is the counterexample to the
claim as originally stated.) -/
theorem c1_scope_stack_balance (st : PassState) (p : Option Nat)
    (h : st.stack ≠ [] ∨ p = none) :
    (push_scope st p).stack = st.next_id :: st.stack
    ∧ (push_scope st p).parent_of = (st.next_id, st.stack.head?) :: st.parent_of
    ∧ (pop_scope (push_scope st p)).stack = st.stack := by
  cases hs : st.stack with
  | nil =>
      rcases h with h | h
      · exact absurd hs h
      · subst h
        refine ⟨?_, ?_, ?_⟩ <;> simp [push_scope, pop_scope, hs]
  | cons a t =>
      refine ⟨?_, ?_, ?_⟩ <;> simp [push_scope, pop_scope, hs]

/-- Witness for C1 at a concrete state: a stack holding the module scope 0,
entering a parentless node. -/
theorem c1_scope_stack_balance_witness :
    (pop_scope (push_scope ⟨[0], [(0, none)], [], 1⟩ none)).stack = [0] :=
  (c1_scope_stack_balance ⟨[0], [(0, none)], [], 1⟩ none
    (Or.inl (by decide))).2.2

/-- C1 counterexample: entering a scope-introducing node while the stack is
empty and the node has a parent (whose table is scope 0) appends the
parent's table and a fresh kid scope; the exit handler pops only one, so
the stack after exit is `[0]`, not the empty stack seen before enter. -/
theorem c1_scope_stack_counterexample :
    (pop_scope (push_scope ⟨[], [(0, none)], [], 1⟩ (some 0))).stack = [0]
    ∧ (pop_scope (push_scope ⟨[], [(0, none)], [], 1⟩ (some 0))).stack
        ≠ (⟨[], [(0, none)], [], 1⟩ : PassState).stack := by
  refine ⟨by decide, by decide⟩

/-- C8: entering a test block pushes one fresh scope, inserts into exactly
that scope one definition per assertion-helper name (precisely the listed
member names that begin with "assert"), and the exit handler restores the
scope stack. -/
theorem c8_test_scope_helpers (st : PassState) (p : Option Nat)
    (names : List Text) (h : st.stack ≠ []) :
    (enter_test st p names).stack = st.next_id :: st.stack
    ∧ (enter_test st p names).defs_in
        = ((assert_names names).reverse.map fun nm => (st.next_id, nm))
            ++ st.defs_in
    ∧ (∀ nm, nm ∈ names → "assert".toList.isPrefixOf nm = true →
        (st.next_id, nm) ∈ (enter_test st p names).defs_in)
    ∧ (exit_test (enter_test st p names)).stack = st.stack := by
  have hp : (push_scope st p).stack = st.next_id :: st.stack := by
    cases hs : st.stack with
    | nil => exact absurd hs h
    | cons a t => simp [push_scope, hs]
  obtain ⟨h1, h2⟩ :=
    foldl_def_insert (assert_names names) (push_scope st p) st.next_id
      st.stack hp
  have hpd : (push_scope st p).defs_in = st.defs_in := by
    cases hs : st.stack with
    | nil => exact absurd hs h
    | cons a t => simp [push_scope, hs]
  refine ⟨by rw [enter_test, h1, hp], ?_, ?_, ?_⟩
  · rw [enter_test, h2, hpd]
  · intro nm hmem hpre
    rw [enter_test, h2, hpd]
    refine List.mem_append.mpr (Or.inl ?_)
    exact List.mem_map.mpr
      ⟨nm, List.mem_reverse.mpr (List.mem_filter.mpr ⟨hmem, hpre⟩), rfl⟩
  · rw [exit_test, pop_scope, enter_test, h1, hp]
    simp

/-- Witness for C8: a module scope 0 on the stack, a listing containing
one assertion helper and one other member; the helper is inserted into the
fresh scope 1 and the stack is restored on exit. -/
theorem c8_test_scope_helpers_witness :
    (1, "assertEqual".toList)
        ∈ (enter_test ⟨[0], [(0, none)], [], 1⟩ none
            ["assertEqual".toList, "run".toList]).defs_in
    ∧ (exit_test (enter_test ⟨[0], [(0, none)], [], 1⟩ none
        ["assertEqual".toList, "run".toList])).stack = [0] :=
  ⟨(c8_test_scope_helpers ⟨[0], [(0, none)], [], 1⟩ none
      ["assertEqual".toList, "run".toList] (by decide)).2.2.1
      ("assertEqual".toList) (by decide) (by decide),
   (c8_test_scope_helpers ⟨[0], [(0, none)], [], 1⟩ none
      ["assertEqual".toList, "run".toList] (by decide)).2.2.2⟩

/-- Item of an import statement as `exit_import` inspects it: either a
`ModulePath` node, which optionally carries a parsed `sub_module` (whose
symbol table is identified by a numeric id), or any other expression node.
Every item carries a numeric id for recording `def_insert` effects. -/
inductive ImportItemNode where
  | modulePath (item_id : Nat) (sub_module_tab : Option Nat)
  | otherItem (item_id : Nat)
deriving DecidableEq, Repr

/-- Numeric id of an import item node. -/
def ImportItemNode.item_id : ImportItemNode → Nat
  | .modulePath i _ => i
  | .otherItem i => i

/-- Import node as `exit_import` inspects it: the `is_absorb` and `is_jac`
flags and the `items.items` list. -/
structure ImportNode where
  is_absorb : Bool
  is_jac : Bool
  items : List ImportItemNode
deriving DecidableEq, Repr

/-- Symbol-table effect performed by `exit_import`: a `def_insert` of an
imported item, or an `inherit_sym_tab` of the source module's table into
the importing scope. -/
inductive ImportEffect where
  | defInsert (item_id : Nat)
  | inheritSymTab (tab_id : Nat)
deriving DecidableEq, Repr

/-- Model of `SymTabBuildPass.exit_import` (sym_tab_build_pass.py lines
91-103), returning the symbol-table effects together with the collected
diagnostics (`Pass.error` is modelled from the spec as appending to a
diagnostic list and returning, not raising).  A non-absorbing import
inserts every item as a definition.  An absorbing Jac import inspects the
first item: if it is not a `ModulePath`, or has no parsed `sub_module`,
a module-not-found diagnostic is recorded; otherwise the importing scope
inherits the source module's symbol table.  The empty-items case cannot
arise (the grammar guarantees at least one item). -/
def exit_import (node : ImportNode) : List ImportEffect × List Text :=
  if ¬ node.is_absorb then
    (node.items.map (fun i => .defInsert i.item_id), [])
  else if node.is_absorb ∧ node.is_jac then
    match node.items with
    | [] => ([], [])
    | source :: _ =>
        match source with
        | .modulePath _ (some tab) => ([.inheritSymTab tab], [])
        | .modulePath _ none =>
            ([], ["Module not found to include *, or ICE occurred!".toList])
        | .otherItem _ =>
            ([], ["Module not found to include *, or ICE occurred!".toList])
  else ([], [])

/-- C4: an absorbing Jac import whose first item does not resolve to a
parsed sub-module records exactly one collected diagnostic, performs no
symbol-table effect and returns normally; when the source resolves, the
importing scope inherits the source module's symbol table; a
non-absorbing one inserts every item as a definition, no diagnostic. -/
theorem c4_import_handling (node : ImportNode) :
    (node.is_absorb = true → node.is_jac = true →
      ∀ src rest, node.items = src :: rest →
        (∀ i tab, src = ImportItemNode.modulePath i tab → tab = none) →
          (exit_import node).1 = []
          ∧ (exit_import node).2
              = ["Module not found to include *, or ICE occurred!".toList])
    ∧ (node.is_absorb = true → node.is_jac = true →
        ∀ i tab rest,
          node.items = ImportItemNode.modulePath i (some tab) :: rest →
            (exit_import node).1 = [ImportEffect.inheritSymTab tab]
            ∧ (exit_import node).2 = [])
    ∧ (node.is_absorb = false →
        (exit_import node).1
            = node.items.map (fun i => ImportEffect.defInsert i.item_id)
        ∧ (exit_import node).2 = []) := by
  refine ⟨?_, ?_, ?_⟩
  · intro ha hj src rest hitems hsrc
    cases src with
    | modulePath i tab =>
        have : tab = none := hsrc i tab rfl
        subst this
        constructor <;> simp [exit_import, ha, hj, hitems]
    | otherItem i =>
        constructor <;> simp [exit_import, ha, hj, hitems]
  · intro ha hj i tab rest hitems
    constructor <;> simp [exit_import, ha, hj, hitems]
  · intro ha
    constructor <;> simp [exit_import, ha]

/-- Witness for C4 at concrete import nodes: an absorbing Jac import of an
unresolved module path records the diagnostic; the same import with the
sub-module parsed (table 3) inherits table 3; a plain import of items 4
and 5 inserts both. -/
theorem c4_import_handling_witness :
    (exit_import ⟨true, true, [ImportItemNode.modulePath 2 none]⟩).2
        = ["Module not found to include *, or ICE occurred!".toList]
    ∧ (exit_import ⟨true, true, [ImportItemNode.modulePath 2 (some 3)]⟩).1
        = [ImportEffect.inheritSymTab 3]
    ∧ (exit_import ⟨false, true,
        [ImportItemNode.otherItem 4, ImportItemNode.otherItem 5]⟩).1
        = [ImportEffect.defInsert 4, ImportEffect.defInsert 5] :=
  ⟨((c4_import_handling ⟨true, true, [ImportItemNode.modulePath 2 none]⟩).1
      rfl rfl (ImportItemNode.modulePath 2 none) [] rfl
      (by intro i tab h; cases h; rfl)).2,
   ((c4_import_handling ⟨true, true,
      [ImportItemNode.modulePath 2 (some 3)]⟩).2.1 rfl rfl 2 3 [] rfl).1,
   by
     have h := ((c4_import_handling ⟨false, true,
       [ImportItemNode.otherItem 4, ImportItemNode.otherItem 5]⟩).2.2 rfl).1
     simpa using h⟩

end SymTabBuild

namespace DefUse

/-- Assignment target item as `enter_assignment` classifies it: an
`AtomTrailer` (attribute chain, carrying its `as_attr_list` of name ids),
any other symbol-bearing node (`AstSymbolNode`, carrying its id), or a
node that is neither, such as a literal. -/
inductive AssignTarget where
  | atomTrailer (chain : List Nat)
  | symbolNode (id : Nat)
  | otherTarget
deriving DecidableEq, Repr

/-- Symbol-table effect performed by `enter_assignment` on one target:
`chain_def_insert` for attribute chains, `def_insert` for plain symbol
nodes. -/
inductive AssignEffect where
  | chainDefInsert (chain : List Nat)
  | defInsert (id : Nat)
deriving DecidableEq, Repr

/-- Effect, if any, of one assignment target. -/
def assign_effect : AssignTarget → Option AssignEffect
  | .atomTrailer c => some (.chainDefInsert c)
  | .symbolNode i => some (.defInsert i)
  | .otherTarget => none

/-- Model of `DefUsePass.enter_assignment` (def_use_pass.py lines 63-70):
iterate over `node.target.items` in order; an `AtomTrailer` target gets a
`chain_def_insert`, another `AstSymbolNode` target gets a `def_insert`,
anything else records the collected diagnostic "Assignment target not
valid" (`Pass.error` modelled from the spec as collecting) and the loop
continues with the remaining targets. -/
def enter_assignment : List AssignTarget → List AssignEffect × List Text
  | [] => ([], [])
  | t :: rest =>
      let r := enter_assignment rest
      match t with
      | .atomTrailer c => (.chainDefInsert c :: r.1, r.2)
      | .symbolNode i => (.defInsert i :: r.1, r.2)
      | .otherTarget => (r.1, "Assignment target not valid".toList :: r.2)

/-- C5: for every target list, the effects of `enter_assignment` are
exactly, in order, a `chain_def_insert` per attribute-chain target and a
`def_insert` per symbol-bearing target, and one invalid-assignment-target
diagnostic is collected per remaining target — so an invalid target does
not stop the processing of the targets after it. -/
theorem c5_assignment_targets (targets : List AssignTarget) :
    (enter_assignment targets).1 = targets.filterMap assign_effect
    ∧ (enter_assignment targets).2
        = (targets.filter (· = AssignTarget.otherTarget)).map
            (fun _ => "Assignment target not valid".toList) := by
  induction targets with
  | nil => exact ⟨rfl, rfl⟩
  | cons t rest ih =>
      obtain ⟨h1, h2⟩ := ih
      cases t with
      | atomTrailer c =>
          constructor <;> simp [enter_assignment, assign_effect, h1, h2]
      | symbolNode i =>
          constructor <;> simp [enter_assignment, assign_effect, h1, h2]
      | otherTarget =>
          constructor <;> simp [enter_assignment, assign_effect, h1, h2]

/-- Node kinds that matter to `enter_architype`: the four walker-specific
constructs (`VisitStmt`, `IgnoreStmt`, `DisengageStmt`, `EdgeOpRef`), an
`Ability`, and everything else. -/
inductive DKind where
  | visitS | ignoreS | disengageS | edgeOpRef | abilityK | otherK
deriving DecidableEq, Repr

/-- Kinds tagged by `inform_from_walker` (def_use_pass.py lines 24-31). -/
def isTagKind : DKind → Bool
  | .visitS => true
  | .ignoreS => true
  | .disengageS => true
  | .edgeOpRef => true
  | _ => false

/-- AST node as the walker-tagging step sees it: a kind, the mutable
`from_walker` flag, the ordered kid subtree, and — for an `Ability` whose
`body` is a separately defined `AbilityDef` — that body tree (`ext_body`),
which lives outside the architype's own kid subtree. -/
inductive DNode where
  | mk (kind : DKind) (from_walker : Bool) (kids : List DNode)
      (ext_body : Option DNode)

/-- Kind of a node. -/
def DNode.kind : DNode → DKind
  | .mk k _ _ _ => k

/-- Kids of a node. -/
def DNode.kids : DNode → List DNode
  | .mk _ _ kids _ => kids

mutual

/-- Tag a node and its kid subtree: set `from_walker` on every node of one
of the four walker-specific kinds; `ext_body` references are not followed
(`get_all_sub_nodes` walks the kid lists only). -/
def tagStmts : DNode → DNode
  | .mk k fw kids ext => .mk k (fw || isTagKind k) (tagStmtsList kids) ext

/-- Tag every node of a kid list. -/
def tagStmtsList : List DNode → List DNode
  | [] => []
  | x :: xs => tagStmts x :: tagStmtsList xs

end

/-- Model of `inform_from_walker(node)` (def_use_pass.py lines 24-31): tag
every strict sub-node of the four walker-specific kinds; the root itself
(an `Architype` or `AbilityDef`) is left as is. -/
def inform_from_walker : DNode → DNode
  | .mk k fw kids ext => .mk k fw (tagStmtsList kids) ext

mutual

/-- Second phase of `enter_architype` (lines 35-37) applied to every node
of a subtree: each `Ability` whose body is a separately defined
`AbilityDef` gets `inform_from_walker` applied to that body. -/
def tagBodies : DNode → DNode
  | .mk k fw kids ext =>
      .mk k fw (tagBodiesList kids)
        (if k = DKind.abilityK then ext.map inform_from_walker else ext)

/-- Second phase applied to every node of a kid list. -/
def tagBodiesList : List DNode → List DNode
  | [] => []
  | x :: xs => tagBodies x :: tagBodiesList xs

end

/-- Model of `DefUsePass.enter_architype` (def_use_pass.py lines 21-37)
restricted to its walker-tagging part (the `inherit_baseclasses_sym` call
is independent of this claim).  `is_walker` is the source test
`node.arch_type.name == Tok.KW_WALKER`.  For a walker architype the
sub-walk `inform_from_walker` tags the architype's kid subtree, and every
`Ability` sub-node whose body is an `AbilityDef` has that body's subtree
tagged as well; for any other architype kind nothing is changed. -/
def enter_architype (is_walker : Bool) (t : DNode) : DNode :=
  if is_walker then
    match inform_from_walker t with
    | .mk k fw kids ext => .mk k fw (tagBodiesList kids) ext
  else t

mutual

/-- Check that every node of the four walker-specific kinds in a kid
subtree (the node itself included) has `from_walker` set. -/
def stmts_tagged : DNode → Bool
  | .mk k fw kids _ => (!isTagKind k || fw) && stmts_tagged_list kids

/-- List version of `stmts_tagged`. -/
def stmts_tagged_list : List DNode → Bool
  | [] => true
  | x :: xs => stmts_tagged x && stmts_tagged_list xs

end

/-- Check of one node's own ability body: an `Ability` with a separately
defined `AbilityDef` body must have every walker-specific node strictly
below that body tagged; any other node passes vacuously. -/
def body_ok : DKind → Option DNode → Bool
  | DKind.abilityK, some b => stmts_tagged_list b.kids
  | _, _ => true

mutual

/-- Check that for every `Ability` in a kid subtree (the node itself
included) whose body is a separately defined `AbilityDef`, every
walker-specific node strictly below that body has `from_walker` set. -/
def bodies_tagged : DNode → Bool
  | .mk k _ kids ext => body_ok k ext && bodies_tagged_list kids

/-- List version of `bodies_tagged`. -/
def bodies_tagged_list : List DNode → Bool
  | [] => true
  | x :: xs => bodies_tagged x && bodies_tagged_list xs

end

mutual

/-- Every walker-specific node is tagged after `tagStmts`. -/
def stmts_tagged_tagStmts : (t : DNode) → stmts_tagged (tagStmts t) = true
  | .mk k fw kids ext => by
      rw [tagStmts, stmts_tagged, stmts_tagged_list_tagStmtsList kids]
      cases isTagKind k <;> cases fw <;> rfl

/-- List version of `stmts_tagged_tagStmts`. -/
def stmts_tagged_list_tagStmtsList :
    (l : List DNode) → stmts_tagged_list (tagStmtsList l) = true
  | [] => rfl
  | x :: xs => by
      rw [tagStmtsList, stmts_tagged_list, stmts_tagged_tagStmts x,
        stmts_tagged_list_tagStmtsList xs]
      rfl

end

mutual

/-- The second phase does not change kinds, flags or the kid-tree shape,
so `stmts_tagged` is unaffected by it. -/
def stmts_tagged_tagBodies :
    (t : DNode) → stmts_tagged (tagBodies t) = stmts_tagged t
  | .mk k fw kids ext => by
      rw [tagBodies, stmts_tagged, stmts_tagged,
        stmts_tagged_list_tagBodiesList kids]

/-- List version of `stmts_tagged_tagBodies`. -/
def stmts_tagged_list_tagBodiesList :
    (l : List DNode) → stmts_tagged_list (tagBodiesList l) = stmts_tagged_list l
  | [] => rfl
  | x :: xs => by
      rw [tagBodiesList, stmts_tagged_list, stmts_tagged_list,
        stmts_tagged_tagBodies x, stmts_tagged_list_tagBodiesList xs]

end

mutual

/-- After the second phase, every separately defined ability body in the
subtree has its walker-specific nodes tagged. -/
def bodies_tagged_tagBodies : (t : DNode) → bodies_tagged (tagBodies t) = true
  | .mk k fw kids ext => by
      rw [tagBodies, bodies_tagged, bodies_tagged_list_tagBodiesList kids]
      by_cases hk : k = DKind.abilityK
      · subst hk
        rw [if_pos rfl]
        cases ext with
        | none => rfl
        | some b =>
            cases b with
            | mk bk bfw bkids bext =>
                simp [inform_from_walker, body_ok, DNode.kids,
                  stmts_tagged_list_tagStmtsList]
      · rw [if_neg hk]
        cases k with
        | abilityK => exact absurd rfl hk
        | visitS => cases ext <;> rfl
        | ignoreS => cases ext <;> rfl
        | disengageS => cases ext <;> rfl
        | edgeOpRef => cases ext <;> rfl
        | otherK => cases ext <;> rfl

/-- List version of `bodies_tagged_tagBodies`. -/
def bodies_tagged_list_tagBodiesList :
    (l : List DNode) → bodies_tagged_list (tagBodiesList l) = true
  | [] => rfl
  | x :: xs => by
      rw [tagBodiesList, bodies_tagged_list, bodies_tagged_tagBodies x,
        bodies_tagged_list_tagBodiesList xs]
      rfl

end

/-- C7: for a walker-kind architype, after `enter_architype` every
visit/ignore/disengage statement and directed-edge reference in the
architype's kid subtree has `from_walker` set, and so does every one
nested inside a separately defined `AbilityDef` body of one of its
abilities; for an architype of any other kind the step changes nothing. -/
theorem c7_walker_tagging :
    (∀ t : DNode,
      stmts_tagged_list (enter_architype true t).kids = true
      ∧ bodies_tagged_list (enter_architype true t).kids = true)
    ∧ (∀ t : DNode, enter_architype false t = t) := by
  constructor
  · intro t
    cases t with
    | mk k fw kids ext =>
        constructor
        · rw [enter_architype]
          simp only [if_pos trivial, inform_from_walker, DNode.kids]
          rw [stmts_tagged_list_tagBodiesList, stmts_tagged_list_tagStmtsList]
        · rw [enter_architype]
          simp only [if_pos trivial, inform_from_walker, DNode.kids]
          rw [bodies_tagged_list_tagBodiesList]
  · intro t
    rw [enter_architype]
    simp

/-- Atom expression as the resolution handlers see it: a bare `Name`
(identified by a numeric id) or an `AtomTrailer` with its `target` (left)
and `right` parts.  Attribute access is left-associative, so the chain
`a.b.c` is `tr (tr (nm a) (nm b)) (nm c)`. -/
inductive AExpr where
  | nm (id : Nat)
  | tr (target : AExpr) (right : AExpr)
deriving DecidableEq, Repr

/-- Model of `AtomTrailer.as_attr_list` (modelled from the spec's notion
of a chain, `absyntree.py` being outside this excerpt): the dot-separated
name segments of the subtree flattened in source order. -/
def as_attr_list : AExpr → List Nat
  | .nm i => [i]
  | .tr t r => as_attr_list t ++ as_attr_list r

/-- Resolution event performed against the symbol table: a plain
`use_lookup` of one name, or a `chain_use_lookup` of a segment list
(which, per the spec's `chain_lookup`, resolves its first segment via
scope lookup and the rest via member lookup). -/
inductive DUEvent where
  | use_lookup (id : Nat)
  | chain_use_lookup (chain : List Nat)
deriving DecidableEq, Repr

/-- Model of `DefUsePass.enter_name` (def_use_pass.py lines 123-125): a
`Name` whose immediate parent is an `AtomTrailer` produces no lookup of
its own; any other `Name` is resolved via `use_lookup`. -/
def enter_name (parent_is_atom_trailer : Bool) (id : Nat) : List DUEvent :=
  if parent_is_atom_trailer then [] else [.use_lookup id]

/-- Model of `DefUsePass.enter_atom_trailer` (lines 80-82): resolve the
flattened segment list via `chain_use_lookup`. -/
def enter_atom_trailer (t : AExpr) : List DUEvent :=
  [.chain_use_lookup (as_attr_list t)]

/-- Resolution events produced by the def/use pass traversal over an atom
expression: the standard pre-order visitor fires `enter_name` on every
`Name` (with the parent-kind flag) and `enter_atom_trailer` on every
`AtomTrailer`, nested ones included (the `Pass` walker, outside this
excerpt, is modelled from the spec as a visitor over every node). -/
def du_walk (parent_is_atom_trailer : Bool) : AExpr → List DUEvent
  | .nm i => enter_name parent_is_atom_trailer i
  | .tr t r => enter_atom_trailer (.tr t r) ++ (du_walk true t ++ du_walk true r)

/-- Count of the events that resolve the name `x` via a scope lookup: its
own `use_lookup` events plus the `chain_use_lookup` events whose first
segment is `x`. -/
def resolveCount (x : Nat) (evs : List DUEvent) : Nat :=
  evs.countP fun e =>
    match e with
    | .use_lookup i => i = x
    | .chain_use_lookup c => c.head? = some x

/-- Left-nested attribute chain starting at the name `a` followed by the
segments `rest`: `chainOf a [b, c]` is the tree of `a.b.c`. -/
def chainOf (a : Nat) (rest : List Nat) : AExpr :=
  rest.foldl (fun t i => .tr t (.nm i)) (.nm a)

theorem as_attr_list_chainOf (a : Nat) (l : List Nat) :
    as_attr_list (chainOf a l) = a :: l := by
  induction l using List.reverseRecOn with
  | nil => rfl
  | append_singleton l x ih =>
      rw [chainOf, List.foldl_append] at *
      simp only [List.foldl_cons, List.foldl_nil]
      rw [as_attr_list, ih]
      rfl

theorem du_walk_tr_any (p q : Bool) (t r : AExpr) :
    du_walk p (.tr t r) = du_walk q (.tr t r) := by
  rfl

theorem resolveCount_chainOf (a : Nat) (l : List Nat) :
    resolveCount a (du_walk true (chainOf a l)) = l.length := by
  induction l using List.reverseRecOn with
  | nil => simp [chainOf, du_walk, enter_name, resolveCount]
  | append_singleton l x ih =>
      rw [chainOf, List.foldl_append] at *
      simp only [List.foldl_cons, List.foldl_nil]
      rw [du_walk, enter_atom_trailer]
      show resolveCount a
        ([DUEvent.chain_use_lookup (as_attr_list (.tr (chainOf a l) (.nm x)))]
          ++ (du_walk true (chainOf a l) ++ du_walk true (.nm x))) = _
      rw [resolveCount, List.countP_append, List.countP_append]
      have hhead : as_attr_list (.tr (chainOf a l) (.nm x))
          = (a :: l) ++ [x] := by
        rw [as_attr_list, as_attr_list_chainOf]
        rfl
      rw [resolveCount] at ih
      rw [chainOf] at hhead
      simp [du_walk, enter_name, hhead, chainOf, ih, Nat.add_comm]

/-- C3 (amended): a `Name` under an `AtomTrailer` parent is never resolved
via an independent `use_lookup`, and a `Name` elsewhere is resolved via
exactly one `use_lookup`; but because the traversal fires
`enter_atom_trailer` on nested trailers too, the base of a left-nested
attribute chain of 1+n segments is resolved by exactly n
`chain_use_lookup` events — exactly once only when the chain has two
segments. -/
theorem c3_chain_base_resolution :
    (∀ i : Nat, du_walk true (.nm i) = []
      ∧ du_walk false (.nm i) = [DUEvent.use_lookup i])
    ∧ (∀ (a : Nat) (l : List Nat) (x : Nat),
        resolveCount a (du_walk false (chainOf a (l ++ [x])))
          = l.length + 1) := by
  constructor
  · intro i
    exact ⟨rfl, rfl⟩
  · intro a l x
    have h1 : chainOf a (l ++ [x]) = .tr (chainOf a l) (.nm x) := by
      rw [chainOf, List.foldl_append]
      rfl
    have h2 := resolveCount_chainOf a (l ++ [x])
    rw [h1] at h2 ⊢
    rw [du_walk_tr_any false true, h2]
    simp

/-- C3 counterexample: in the three-segment chain `a.b.c` (names 0, 1, 2)
both the outer trailer and the nested inner trailer fire
`chain_use_lookup` with base 0, so the base is resolved twice, not exactly
once; no independent `use_lookup` of it occurs. -/
theorem c3_chain_base_counterexample :
    resolveCount 0
        (du_walk false (.tr (.tr (.nm 0) (.nm 1)) (.nm 2))) = 2
    ∧ ¬ resolveCount 0
        (du_walk false (.tr (.tr (.nm 0) (.nm 1)) (.nm 2))) = 1 := by
  refine ⟨by decide, by decide⟩

end DefUse




namespace JacFormat

/-- Whitespace test matching Python `str.strip`'s default for the
characters that occur in generated Jac text. -/
def ws (c : Char) : Bool :=
  c.isWhitespace

/-- Model of Python `s.strip().strip("\n")` as used by `emit_ln`
(jac_formatter_pass.py line 59): drop whitespace from both ends (the
second `strip` is then a no-op). -/
def pyStrip (s : Text) : Text :=
  ((s.dropWhile ws).reverse.dropWhile ws).reverse

/-- Model of Python `s.rstrip(" ")` (line 53): drop trailing spaces. -/
def rstripSpaces (s : Text) : Text :=
  (s.reverse.dropWhile (fun c => c = ' ')).reverse

/-- Model of Python `s.endswith("\n\n")`. -/
def endsWithNN (s : Text) : Bool :=
  match s.reverse with
  | c1 :: c2 :: _ => c1 == '\n' && c2 == '\n'
  | _ => false

/-- Model of `JacFormatPass.emit` (lines 47-55) at indent level 0 with the
default `strip_mode`: append `s` to the node's accumulated generated text;
the re-indentation regular expression is the identity at indent 0, and if
the accumulated text now contains a newline its trailing spaces are
stripped. -/
def emit0 (acc s : Text) : Text :=
  let a := acc ++ s
  if '\n' ∈ a then rstripSpaces a else a

/-- Model of `JacFormatPass.emit_ln` (lines 57-60) at indent level 0:
emit the stripped text, then emit a newline. -/
def emitLn0 (acc s : Text) : Text :=
  emit0 (emit0 acc (pyStrip s)) ['\n']

theorem dropWhile_head_false {p : Char → Bool} :
    ∀ {l : Text} {c : Char} {t : Text}, List.dropWhile p l = c :: t → p c = false := by
  intro l
  induction l with
  | nil => intro c t h; cases h
  | cons x xs ih =>
      intro c t h
      by_cases hx : p x
      · rw [List.dropWhile_cons_of_pos hx] at h
        exact ih h
      · rw [List.dropWhile_cons_of_neg hx] at h
        cases h
        exact Bool.of_not_eq_true hx

theorem rstripSpaces_of_getLast (l : Text) (c : Char) (h : l.getLast? = some c)
    (hc : c ≠ ' ') : rstripSpaces l = l := by
  rw [rstripSpaces]
  rw [← List.head?_reverse] at h
  cases hr : l.reverse with
  | nil => rw [hr] at h; cases h
  | cons a t =>
      rw [hr] at h
      rw [List.head?] at h
      cases h
      rw [List.dropWhile_cons_of_neg (by simpa using hc)]
      rw [← hr, List.reverse_reverse]

theorem rstripSpaces_append_nl (X : Text) :
    rstripSpaces (X ++ ['\n']) = X ++ ['\n'] := by
  refine rstripSpaces_of_getLast _ '\n' ?_ (by decide)
  rw [← List.head?_reverse]
  simp

theorem emitLn0_eq (acc s : Text) :
    emitLn0 acc s = emit0 acc (pyStrip s) ++ ['\n'] := by
  rw [emitLn0, emit0]
  have : '\n' ∈ emit0 acc (pyStrip s) ++ ['\n'] := by simp
  rw [if_pos this]
  exact rstripSpaces_append_nl _

theorem getLast?_append_of_getLast? {l₁ l₂ : Text} {c : Char}
    (h : l₂.getLast? = some c) : (l₁ ++ l₂).getLast? = some c := by
  rw [← List.head?_reverse] at h ⊢
  rw [List.reverse_append]
  cases hr : l₂.reverse with
  | nil => rw [hr] at h; cases h
  | cons a t =>
      rw [hr] at h
      simp only [List.cons_append, List.head?_cons] at h ⊢
      exact h

theorem emit0_of_getLast (acc s : Text) (c : Char) (h : s.getLast? = some c)
    (hc : c ≠ ' ') : emit0 acc s = acc ++ s := by
  rw [emit0]
  split
  · exact rstripSpaces_of_getLast _ c (getLast?_append_of_getLast? h) hc
  · rfl

theorem pyStrip_getLast (s : Text) :
    pyStrip s = [] ∨ ∃ c, (pyStrip s).getLast? = some c ∧ ws c = false := by
  rw [pyStrip]
  cases hT : (s.dropWhile ws).reverse.dropWhile ws with
  | nil => left; rfl
  | cons c t =>
      right
      refine ⟨c, ?_, dropWhile_head_false hT⟩
      rw [← List.head?_reverse, List.reverse_reverse]
      rfl

theorem emit0_pyStrip_of_acc_nl (acc g : Text) (hacc : acc.getLast? = some '\n') :
    emit0 acc (pyStrip g) = acc ++ pyStrip g := by
  rcases pyStrip_getLast g with h | ⟨c, hg, hcw⟩
  · rw [h, emit0]
    split
    · simpa using rstripSpaces_of_getLast acc '\n' hacc (by decide)
    · simp
  · refine emit0_of_getLast _ _ c hg ?_
    intro hcs
    rw [hcs] at hcw
    simp [ws] at hcw

/-- Model of the wrap threshold set in `JacFormatPass.before_pass` (line
23): `int(float(settings.max_line_length) / 2)`, the integer floor of half
the externally configured maximum (the float round-trip is exact for the
settings range); the configured maximum is a parameter since
`jaclang.settings` is outside this excerpt. -/
def MAX_LINE_LENGTH (max_line_length : Nat) : Nat :=
  max_line_length / 2

/-- Model of `JacFormatPass.is_line_break_needed` (lines 773-777): when
the `max_line_length` argument is 0 (its default) the threshold is the
pass's `MAX_LINE_LENGTH`; the result is whether the content is strictly
longer than the threshold. -/
def is_line_break_needed (configured_max : Nat) (content : Text)
    (max_arg : Nat) : Bool :=
  let limit := if max_arg = 0 then MAX_LINE_LENGTH configured_max else max_arg
  decide (limit < content.length)

/-- C9: the formatter's wrap threshold is the integer floor of half the
configured maximum line length, and with the default argument the
line-break check holds exactly when the content's length strictly exceeds
that threshold. -/
theorem c9_wrap_threshold (configured_max : Nat) (content : Text) :
    MAX_LINE_LENGTH configured_max = configured_max / 2
    ∧ (is_line_break_needed configured_max content 0 = true
        ↔ content.length > configured_max / 2) := by
  refine ⟨rfl, ?_⟩
  simp [is_line_break_needed, MAX_LINE_LENGTH]

/-- Kind of a kid of an `IterForStmt` as `exit_iter_for_stmt` classifies
it: a comment token (inline or standalone), a `Semi`, or anything else. -/
inductive IterKidKind where
  | commentK (inline : Bool)
  | semiK
  | plainK
deriving DecidableEq, Repr

/-- Kid of an `IterForStmt` in the formatter: its generated-text slot
(`gen.jac`), whether it is the node's `iter`, `condition` or `count_by`
child, and its kind. -/
structure IterKid where
  gen : Text
  is_iter_cond_count : Bool
  kind : IterKidKind
deriving DecidableEq, Repr

/-- Model of Python `s.replace(" ", "")`: delete every space. -/
def removeSpaces (s : Text) : Text :=
  s.filter (fun c => c ≠ ' ')

/-- Slot rewrite performed by `exit_iter_for_stmt` (line 950) on the kids
that are the statement's `iter`, `condition` or `count_by`: their
generated text has every space removed, in place. -/
def iter_kid_update (k : IterKid) : IterKid :=
  if k.is_iter_cond_count then { k with gen := removeSpaces k.gen } else k

/-- Loop of `JacFormatPass.exit_iter_for_stmt` (lines 947-963) at indent
level 0: each kid is first (when it is `iter`/`condition`/`count_by`)
rewritten in place, then emitted — inline comments with a leading space,
standalone comments on their own line, `Semi` directly, and other kids
with a leading space except the first.  The result is the updated kid
list paired with the node's accumulated generated text. -/
def exit_iter_go : List IterKid → Text → Bool → List IterKid × Text
  | [], acc, _ => ([], acc)
  | k :: rest, acc, start =>
      let k2 := iter_kid_update k
      let next :=
        match k2.kind with
        | .commentK true => (emit0 acc (' ' :: k2.gen), start)
        | .commentK false => (emitLn0 acc k2.gen, start)
        | .semiK => (emit0 acc k2.gen, start)
        | .plainK =>
            if start then (emit0 acc k2.gen, false)
            else (emit0 acc (' ' :: k2.gen), start)
      let r := exit_iter_go rest next.1 next.2
      (k2 :: r.1, r.2)

/-- Test of `isinstance(node.kid[-1], (ast.Semi, ast.CommentToken))`. -/
def last_semi_or_comment (kids : List IterKid) : Bool :=
  match kids.getLast? with
  | some k =>
      match k.kind with
      | .semiK => true
      | .commentK _ => true
      | _ => false
  | none => false

/-- Model of `JacFormatPass.exit_iter_for_stmt` (lines 939-965) at indent
level 0: a leading blank line when the statement sits directly in an
ability body, the kid loop, and a trailing newline when the last kid is a
`Semi` or comment. -/
def exit_iter_for_stmt (parent_parent_is_ability : Bool)
    (kids : List IterKid) : List IterKid × Text :=
  let acc0 : Text := if parent_parent_is_ability then emitLn0 [] [] else []
  let r := exit_iter_go kids acc0 true
  (r.1, if last_semi_or_comment kids then emitLn0 r.2 [] else r.2)

theorem exit_iter_go_fst (kids : List IterKid) (acc : Text) (start : Bool) :
    (exit_iter_go kids acc start).1 = kids.map iter_kid_update := by
  induction kids generalizing acc start with
  | nil => rfl
  | cons k rest ih =>
      rw [exit_iter_go]
      simp only [List.map_cons]
      cases hk : (iter_kid_update k).kind with
      | commentK b => cases b <;> simp [hk, ih]
      | semiK => simp [hk, ih]
      | plainK => cases start <;> simp [hk, ih]

/-- C2 (amended): the claimed no-child-mutation property fails —
`exit_iter_for_stmt` rewrites the generated-text slots of exactly that
statement's `iter`, `condition` and `count_by` children, removing every
space from text those children had already generated, and leaves the
slots of the statement's other kids unchanged.  (This handler is the
counterexample's site; it is not the only slot-rewriting handler in the
pass.) -/
theorem c2_iter_for_child_slots (parent_parent_is_ability : Bool)
    (kids : List IterKid) :
    (exit_iter_for_stmt parent_parent_is_ability kids).1
      = kids.map iter_kid_update := by
  rw [exit_iter_for_stmt]
  simp only []
  split <;> exact exit_iter_go_fst kids _ true

/-- Iteration child of a concrete `for i=0 to i<3 by i+=1` statement whose
slot holds the text "i = 0" generated while that child was visited. -/
def c2_iter_child : IterKid :=
  ⟨"i = 0".toList, true, IterKidKind.plainK⟩

/-- C2 counterexample: after the parent's `exit_iter_for_stmt`, the child
slot that held "i = 0" holds "i=0" — the formatter rewrote a child's
generated-text slot after that child's text had been generated. -/
theorem c2_child_slot_mutation_counterexample :
    (exit_iter_for_stmt false [c2_iter_child]).1
        = [⟨"i=0".toList, true, IterKidKind.plainK⟩]
    ∧ (exit_iter_for_stmt false [c2_iter_child]).1 ≠ [c2_iter_child] := by
  refine ⟨by decide, by decide⟩

/-- Kid of a `Test` node as `exit_test` classifies it: a comment token
(inline or standalone), a `Semi`, a `Name` (carrying its token value), or
anything else (carrying its generated text). -/
inductive TestKid where
  | commentK (gen : Text) (inline : Bool)
  | semiK (gen : Text)
  | nameK (value : Text)
  | otherK (gen : Text)
deriving DecidableEq, Repr

/-- Test of whether a kid is a `Name` whose value begins with the
auto-generated marker `_jac_gen_`. -/
def is_jac_gen_name : TestKid → Bool
  | .nameK v => "_jac_gen_".toList.isPrefixOf v
  | _ => false

/-- One iteration of the `exit_test` loop (jac_formatter_pass.py lines
1674-1687) at indent level 0: inline comments with a leading space,
standalone comments after a blank line, `Semi` and other kids directly;
a `Name` kid is skipped entirely when its value starts with `_jac_gen_`
and otherwise emitted with a leading space. -/
def exit_test_step (acc : Text) : TestKid → Text
  | .commentK g true => emit0 acc (' ' :: g)
  | .commentK g false => emitLn0 (emitLn0 acc []) g
  | .semiK g => emit0 acc g
  | .nameK v =>
      if "_jac_gen_".toList.isPrefixOf v then acc else emit0 acc (' ' :: v)
  | .otherK g => emit0 acc g

/-- Kid loop of `JacFormatPass.exit_test` (lines 1674-1687). -/
def exit_test_body (kids : List TestKid) (acc : Text) : Text :=
  kids.foldl exit_test_step acc

theorem exit_test_step_of_jac_gen (acc : Text) (k : TestKid)
    (h : is_jac_gen_name k = true) : exit_test_step acc k = acc := by
  cases k with
  | nameK v =>
      rw [is_jac_gen_name] at h
      rw [exit_test_step, if_pos h]
  | commentK g b => cases h
  | semiK g => cases h
  | otherK g => cases h

/-- C10: the `exit_test` kid loop generates the same text as it would with
every `_jac_gen_`-named kid removed (auto-generated test names leave no
trace in the output), and appending a `Name` kid whose value does not
start with `_jac_gen_` emits exactly a single space followed by the value. -/
theorem c10_test_name_rendering :
    (∀ (kids : List TestKid) (acc : Text),
      exit_test_body kids acc
        = exit_test_body (kids.filter (fun k => !is_jac_gen_name k)) acc)
    ∧ (∀ (kids : List TestKid) (acc : Text) (v : Text),
        "_jac_gen_".toList.isPrefixOf v = false →
          exit_test_body (kids ++ [TestKid.nameK v]) acc
            = emit0 (exit_test_body kids acc) (' ' :: v)) := by
  constructor
  · intro kids
    induction kids with
    | nil => intro acc; rfl
    | cons k rest ih =>
        intro acc
        cases hk : is_jac_gen_name k with
        | true =>
            rw [exit_test_body, List.foldl_cons,
              exit_test_step_of_jac_gen acc k hk]
            rw [List.filter_cons_of_neg (by simp [hk])]
            exact ih acc
        | false =>
            rw [exit_test_body, List.foldl_cons,
              List.filter_cons_of_pos (by simp [hk]),
              exit_test_body, List.foldl_cons]
            exact ih (exit_test_step acc k)
  · intro kids acc v hv
    rw [exit_test_body, List.foldl_append]
    rw [List.foldl_cons, List.foldl_nil, exit_test_step, if_neg ?_]
    · rfl
    · rw [hv]
      exact Bool.false_ne_true

/-- Witness for C10 at concrete kids: the name "t1" is emitted as " t1",
and a test whose only `Name` kid is the auto-generated "_jac_gen_t5"
generates no text at all. -/
theorem c10_test_name_rendering_witness :
    "_jac_gen_".toList.isPrefixOf ("t1".toList) = false
    ∧ exit_test_body [TestKid.nameK ("t1".toList)] [] = " t1".toList
    ∧ exit_test_body [TestKid.nameK ("_jac_gen_t5".toList)] [] = [] := by
  refine ⟨by decide, ?_, ?_⟩
  · have h := c10_test_name_rendering.2 [] [] ("t1".toList) (by decide)
    simp only [List.nil_append] at h
    rw [h]
    decide
  · have h := c10_test_name_rendering.1
      [TestKid.nameK ("_jac_gen_t5".toList)] []
    rw [h]
    decide

/-- Element of `node.body` as the second loop of `exit_module` (lines
106-126) inspects it: its generated-text slot, its source span's first and
last line, and whether it is an `Import` or an `Architype`. -/
structure ModElem where
  gen : Text
  first_line : Int
  last_line : Int
  is_import : Bool
  is_architype : Bool
deriving DecidableEq, Repr

/-- First blank-line clause of the loop (lines 109-113): emit a blank
line when the source-line gap to the previous element exceeds 1 and the
previous element's generated text does not already end with two
newlines. -/
def blank_clause_1 (l : ModElem) (acc : Text) (i : ModElem) : Text :=
  if i.first_line - l.last_line > 1 ∧ endsWithNN l.gen = false then
    emitLn0 acc []
  else acc

/-- Second blank-line clause of the loop (lines 117-123): for two
adjacent architypes at a source-line gap of exactly 2, emit a blank line
when the module's accumulated text does not already end with two
newlines. -/
def blank_clause_2 (l : ModElem) (acc : Text) (i : ModElem) : Text :=
  if i.is_architype = true ∧ l.is_architype = true
      ∧ i.first_line - l.last_line = 2 ∧ endsWithNN acc = false then
    emitLn0 acc []
  else acc

/-- One iteration of the `exit_module` body loop (jac_formatter_pass.py
lines 107-126) at indent level 0, `last` being `last_element`: with a
previous element the first blank-line clause runs, then an `Import` is
emitted directly while any other element first gets the
adjacent-architype clause and is then emitted.  With no previous element
both source paths reduce to emitting the element's stripped text on its
own line. -/
def module_body_step : Option ModElem → Text → ModElem → Text
  | none, acc, i => emitLn0 acc i.gen
  | some l, acc, i =>
      if i.is_import = true then emitLn0 (blank_clause_1 l acc i) i.gen
      else emitLn0 (blank_clause_2 l (blank_clause_1 l acc i) i) i.gen

/-- Body loop of `JacFormatPass.exit_module` (lines 106-126) over the
module's body elements, threading `last_element` and the module node's
accumulated generated text (whatever the preceding kid loop emitted). -/
def exit_module_body : List ModElem → Option ModElem → Text → Text
  | [], _, acc => acc
  | i :: rest, last, acc =>
      exit_module_body rest (some i) (module_body_step last acc i)

theorem exists_append_of_getLast (l : Text) (c : Char)
    (h : l.getLast? = some c) : ∃ Y, l = Y ++ [c] := by
  rw [← List.head?_reverse] at h
  cases hr : l.reverse with
  | nil => rw [hr] at h; cases h
  | cons a t =>
      rw [hr] at h
      rw [List.head?] at h
      cases h
      refine ⟨t.reverse, ?_⟩
      rw [← List.reverse_reverse l, hr]
      simp

theorem endsWithNN_concat_pair (X : Text) (c : Char) :
    endsWithNN (X ++ [c, '\n']) = (c == '\n') := by
  have hrev : (X ++ [c, '\n']).reverse = '\n' :: c :: X.reverse := by simp
  rw [endsWithNN, hrev]
  show ((('\n' : Char) == '\n') && (c == '\n')) = (c == '\n')
  simp

theorem emitLn0_nil_of_last_nl (acc : Text) (h : acc.getLast? = some '\n') :
    emitLn0 acc [] = acc ++ ['\n'] := by
  rw [emitLn0_eq]
  have hp : pyStrip ([] : Text) = [] := rfl
  rw [hp]
  have he : emit0 acc [] = acc := by
    rw [emit0]
    simp only [List.append_nil]
    split
    · exact rstripSpaces_of_getLast _ _ h (by decide)
    · rfl
  rw [he]

theorem emitLn0_of_acc_nl (acc g : Text) (h : acc.getLast? = some '\n') :
    emitLn0 acc g = acc ++ pyStrip g ++ ['\n'] := by
  rw [emitLn0_eq, emit0_pyStrip_of_acc_nl _ _ h]

theorem getLast?_concat_nl (X : Text) : (X ++ ['\n']).getLast? = some '\n' :=
  getLast?_append_of_getLast? rfl

theorem module_body_step_not_import (l : ModElem) (acc : Text) (i : ModElem)
    (himp : i.is_import = false) :
    module_body_step (some l) acc i
      = emitLn0 (blank_clause_2 l (blank_clause_1 l acc i) i) i.gen := by
  show (if i.is_import = true then emitLn0 (blank_clause_1 l acc i) i.gen
    else emitLn0 (blank_clause_2 l (blank_clause_1 l acc i) i) i.gen) = _
  rw [if_neg (by rw [himp]; exact Bool.false_ne_true)]

theorem step_pair_one_blank (init : Text) (e1 e2 : ModElem)
    (hg : pyStrip e1.gen ≠ []) (himp : e2.is_import = false)
    (hcond : (e2.first_line - e1.last_line > 1 ∧ endsWithNN e1.gen = false)
      ∨ (e2.is_architype = true ∧ e1.is_architype = true
          ∧ e2.first_line - e1.last_line = 2)) :
    exit_module_body [e1, e2] none init
      = (init ++ pyStrip e1.gen) ++ ['\n', '\n'] ++ pyStrip e2.gen ++ ['\n'] := by
  obtain ⟨c, hc_last, hc_ws⟩ :
      ∃ c, (pyStrip e1.gen).getLast? = some c ∧ ws c = false := by
    rcases pyStrip_getLast e1.gen with h | h
    · exact absurd h hg
    · exact h
  have hcs : c ≠ ' ' := by
    intro h
    rw [h] at hc_ws
    simp [ws] at hc_ws
  have hcn : c ≠ '\n' := by
    intro h
    rw [h] at hc_ws
    simp [ws] at hc_ws
  obtain ⟨Y, hY⟩ := exists_append_of_getLast _ _ hc_last
  have hstep1 : module_body_step none init e1
      = (init ++ pyStrip e1.gen) ++ ['\n'] := by
    show emitLn0 init e1.gen = _
    rw [emitLn0_eq, emit0_of_getLast _ _ c hc_last hcs]
  have hunf : exit_module_body [e1, e2] none init
      = module_body_step (some e1) ((init ++ pyStrip e1.gen) ++ ['\n']) e2 := by
    show module_body_step (some e1) (module_body_step none init e1) e2 = _
    rw [hstep1]
  have hlast1 : ((init ++ pyStrip e1.gen) ++ ['\n']).getLast? = some '\n' :=
    getLast?_concat_nl _
  have hNN2 : endsWithNN (((init ++ pyStrip e1.gen) ++ ['\n']) ++ ['\n'])
      = true := by
    have hsh : ((init ++ pyStrip e1.gen) ++ ['\n']) ++ ['\n']
        = ((init ++ pyStrip e1.gen)) ++ ['\n', '\n'] := by simp
    rw [hsh, endsWithNN_concat_pair]
    simp
  have hblank : emitLn0 ((init ++ pyStrip e1.gen) ++ ['\n']) []
      = ((init ++ pyStrip e1.gen) ++ ['\n']) ++ ['\n'] :=
    emitLn0_nil_of_last_nl _ hlast1
  rw [hunf, module_body_step_not_import _ _ _ himp]
  by_cases hnn : endsWithNN e1.gen = false
  · have hgap : e2.first_line - e1.last_line > 1 := by
      rcases hcond with ⟨h, _⟩ | ⟨_, _, h⟩
      · exact h
      · rw [h]
        decide
    rw [blank_clause_1, if_pos ⟨hgap, hnn⟩, hblank]
    rw [blank_clause_2, if_neg (by
      rintro ⟨-, -, -, h4⟩
      rw [hNN2] at h4
      exact Bool.noConfusion h4)]
    rw [emitLn0_of_acc_nl _ _ (getLast?_concat_nl _)]
    simp
  · have hnnT : endsWithNN e1.gen = true := by
      cases h : endsWithNN e1.gen
      · exact absurd h hnn
      · rfl
    have hNN1 : endsWithNN ((init ++ pyStrip e1.gen) ++ ['\n']) = false := by
      have hsh : (init ++ pyStrip e1.gen) ++ ['\n']
          = (init ++ Y) ++ [c, '\n'] := by
        rw [hY]
        simp
      rw [hsh, endsWithNN_concat_pair]
      simp [hcn]
    rcases hcond with ⟨hgap, hnnF⟩ | ⟨ha2, ha1, hgap2⟩
    · rw [hnnF] at hnnT
      exact absurd hnnT Bool.false_ne_true
    · rw [blank_clause_1, if_neg (by
        rintro ⟨-, h2⟩
        rw [hnnT] at h2
        exact Bool.noConfusion h2)]
      rw [blank_clause_2, if_pos ⟨ha2, ha1, hgap2, hNN1⟩, hblank]
      rw [emitLn0_of_acc_nl _ _ (getLast?_concat_nl _)]
      simp

theorem step_pair_zero_blank (init : Text) (e1 e2 : ModElem)
    (hg : pyStrip e1.gen ≠ []) (himp : e2.is_import = false)
    (hnn : endsWithNN e1.gen = true)
    (hnot : ¬(e2.is_architype = true ∧ e1.is_architype = true
        ∧ e2.first_line - e1.last_line = 2)) :
    exit_module_body [e1, e2] none init
      = (init ++ pyStrip e1.gen) ++ ['\n'] ++ pyStrip e2.gen ++ ['\n'] := by
  obtain ⟨c, hc_last, hc_ws⟩ :
      ∃ c, (pyStrip e1.gen).getLast? = some c ∧ ws c = false := by
    rcases pyStrip_getLast e1.gen with h | h
    · exact absurd h hg
    · exact h
  have hcs : c ≠ ' ' := by
    intro h
    rw [h] at hc_ws
    simp [ws] at hc_ws
  have hstep1 : module_body_step none init e1
      = (init ++ pyStrip e1.gen) ++ ['\n'] := by
    show emitLn0 init e1.gen = _
    rw [emitLn0_eq, emit0_of_getLast _ _ c hc_last hcs]
  have hunf : exit_module_body [e1, e2] none init
      = module_body_step (some e1) ((init ++ pyStrip e1.gen) ++ ['\n']) e2 := by
    show module_body_step (some e1) (module_body_step none init e1) e2 = _
    rw [hstep1]
  rw [hunf, module_body_step_not_import _ _ _ himp]
  rw [blank_clause_1, if_neg (by
    rintro ⟨-, h2⟩
    rw [hnn] at h2
    exact Bool.noConfusion h2)]
  rw [blank_clause_2, if_neg (by
    rintro ⟨h1, h2, h3, -⟩
    exact hnot ⟨h1, h2, h3⟩)]
  rw [emitLn0_of_acc_nl _ _ (getLast?_concat_nl _)]

/-- C6 (amended): between two consecutive top-level declarations the body
loop of `exit_module` emits exactly one blank line when the source gap
exceeds one line and the earlier declaration's generated text does not
already end with two newlines, and likewise for two adjacent architypes
at a gap of exactly one blank source line; but when the earlier
declaration's text does end with two newlines and the adjacent-architype
clause does not apply, the trailing blank is stripped on splice and no
blank line at all separates the declarations. -/
theorem c6_blank_line_policy (init : Text) (e1 e2 : ModElem)
    (hg : pyStrip e1.gen ≠ []) (himp : e2.is_import = false) :
    (e2.first_line - e1.last_line > 1 → endsWithNN e1.gen = false →
      exit_module_body [e1, e2] none init
        = (init ++ pyStrip e1.gen) ++ ['\n', '\n'] ++ pyStrip e2.gen ++ ['\n'])
    ∧ (e2.is_architype = true → e1.is_architype = true →
        e2.first_line - e1.last_line = 2 →
        exit_module_body [e1, e2] none init
          = (init ++ pyStrip e1.gen) ++ ['\n', '\n'] ++ pyStrip e2.gen ++ ['\n'])
    ∧ (e2.first_line - e1.last_line > 1 → endsWithNN e1.gen = true →
        ¬(e2.is_architype = true ∧ e1.is_architype = true
            ∧ e2.first_line - e1.last_line = 2) →
        exit_module_body [e1, e2] none init
          = (init ++ pyStrip e1.gen) ++ ['\n'] ++ pyStrip e2.gen ++ ['\n']) := by
  refine ⟨?_, ?_, ?_⟩
  · intro hgap hnn
    exact step_pair_one_blank init e1 e2 hg himp (Or.inl ⟨hgap, hnn⟩)
  · intro ha2 ha1 hgap2
    exact step_pair_one_blank init e1 e2 hg himp (Or.inr ⟨ha2, ha1, hgap2⟩)
  · intro hgap hnn hnot
    exact step_pair_zero_blank init e1 e2 hg himp hnn hnot

/-- Witness for C6 at concrete declarations: two architypes whose spans
end on line 1 and start on line 5 (three blank source lines) with the
first one's text ending in a single newline-free rendering; the formatted
module shows exactly one blank line between them. -/
theorem c6_blank_line_policy_witness :
    exit_module_body
        [⟨"obj A \x7b\x7d".toList, 1, 1, false, true⟩,
         ⟨"obj B \x7b\x7d".toList, 5, 5, false, true⟩] none []
      = "obj A \x7b\x7d\n\nobj B \x7b\x7d\n".toList := by
  have h := (c6_blank_line_policy []
      ⟨"obj A \x7b\x7d".toList, 1, 1, false, true⟩
      ⟨"obj B \x7b\x7d".toList, 5, 5, false, true⟩
      (by decide) (by decide)).1 (by decide) (by decide)
  rw [h]
  decide

/-- First architype of the C6 counterexample: its generated text ends
with a standalone trailing comment followed by a blank line, the shape
`exit_architype` produces (lines 1207-1209) when the architype's last kid
is a standalone comment, so the slot ends with two newlines. -/
def c6_elem_a : ModElem :=
  ⟨"obj A \x7b\x7d\n# done\n\n".toList, 1, 2, false, true⟩

/-- Second architype of the C6 counterexample, three blank source lines
(lines 3, 4, 5) after the first. -/
def c6_elem_b : ModElem :=
  ⟨"obj B \x7b\x7d".toList, 6, 6, false, true⟩

/-- C6 counterexample: two top-level architypes separated by three blank
source lines, the first one's generated text ending with two newlines.
The blank-line clause is skipped because of that ending, yet `emit_ln`
strips the trailing blank when splicing, so the formatted module contains
no blank line between the two declarations instead of exactly one. -/
theorem c6_blank_line_counterexample :
    c6_elem_b.first_line - c6_elem_a.last_line = 4
    ∧ c6_elem_a.is_architype = true
    ∧ c6_elem_b.is_architype = true
    ∧ exit_module_body [c6_elem_a, c6_elem_b] none []
        = "obj A \x7b\x7d\n# done\nobj B \x7b\x7d\n".toList
    ∧ exit_module_body [c6_elem_a, c6_elem_b] none []
        ≠ "obj A \x7b\x7d\n# done\n\nobj B \x7b\x7d\n".toList := by
  refine ⟨by decide, by decide, by decide, by decide, by decide⟩

end JacFormat
